import Mathlib

/-!
Shallow embedding of the MDSA orchestration core
(`src/mdsa/core/orchestrator.py`, class `TinyBERTOrchestrator`) and of the
collaborator components it drives.

The orchestrator itself is translated directly from the source.  The
collaborator modules it imports (`state_machine.py`, `router.py`,
`reasoner.py`, `complexity_analyzer.py`, `communication_bus.py`, and the
model registry) are not part of the available source tree; where their
behaviour matters they are modelled from the specification, and the doc
comment of each such definition says so.  External, inherently
non-deterministic collaborators (the TinyBERT classifier, the complexity
analyzer, the Phi-2 reasoner) are abstracted as an environment of
possibly-failing functions (`Except` models a Python exception), and the
theorems quantify over every environment.

Python floats become rationals; `time.time()` readings become explicit
`timestamp` / `elapsed_ms` parameters of `process_request`; Python dicts
with a fixed key set become structures whose optional keys are `Option`
fields (`none` = key absent).
-/

namespace MDSA

/-- Workflow states.  Modelled from the spec: `WorkflowState` enum
`INIT, CLASSIFY, VALIDATE_PRE, LOAD_SLM, EXECUTE, VALIDATE_POST, LOG,
RETURN, ERROR` (the `state_machine.py` module is not in the source tree). -/
inductive WorkflowState where
  | INIT
  | CLASSIFY
  | VALIDATE_PRE
  | LOAD_SLM
  | EXECUTE
  | VALIDATE_POST
  | LOG
  | RETURN
  | ERROR
deriving DecidableEq

/-- Modelled from the spec: the strictly linear happy path
`INIT → CLASSIFY → VALIDATE_PRE → LOAD_SLM → EXECUTE → VALIDATE_POST → LOG → RETURN`. -/
def nextState : WorkflowState → Option WorkflowState
  | .INIT => some .CLASSIFY
  | .CLASSIFY => some .VALIDATE_PRE
  | .VALIDATE_PRE => some .LOAD_SLM
  | .LOAD_SLM => some .EXECUTE
  | .EXECUTE => some .VALIDATE_POST
  | .VALIDATE_POST => some .LOG
  | .LOG => some .RETURN
  | .RETURN => none
  | .ERROR => none

/-- Modelled from the spec: `is_terminal_state()` is true only for
`RETURN` and `ERROR`. -/
def is_terminal_state (s : WorkflowState) : Bool :=
  s = WorkflowState.RETURN ∨ s = WorkflowState.ERROR

/-- Modelled from the spec: one state machine instance per in-flight
request, holding the current state, the ordered sequence of states
visited by `transition` (returned by `get_state_history()`), and the
request metadata set via `set_metadata`. -/
structure StateMachine where
  current : WorkflowState
  history : List WorkflowState
  metadata : List (String × String)
deriving DecidableEq

/-- Modelled from the spec: a transition is legal when the target is the
linear successor of the current state, or the target is `ERROR` and the
current state is not terminal; an illegal transition fails (a raised
exception in Python, `Except.error` here) unless `force=True` is passed
(used for the escalation shortcut `CLASSIFY → RETURN`). -/
def StateMachine.transition (sm : StateMachine) (target : WorkflowState)
    (force : Bool := false) : Except String StateMachine :=
  let advanced : StateMachine :=
    { sm with current := target, history := sm.history ++ [target] }
  if force then .ok advanced
  else if nextState sm.current = some target then .ok advanced
  else if target = WorkflowState.ERROR ∧ ¬ is_terminal_state sm.current then .ok advanced
  else .error "Invalid state transition"

/-- Modelled from the spec: `reset()` reinitializes to `INIT` for a new
request (fresh history and metadata). -/
def StateMachine.reset (_sm : StateMachine) : StateMachine :=
  { current := .INIT, history := [], metadata := [] }

/-- Modelled from the spec: store a key/value pair in the request
metadata (latest binding first). -/
def StateMachine.set_metadata (sm : StateMachine) (key value : String) : StateMachine :=
  { sm with metadata := (key, value) :: sm.metadata }

/-- Message types used on the bus (`communication_bus.py` is not in the
source tree; only the constructors `orchestrator.py` uses are modelled). -/
inductive MessageType where
  | LOG
  | STATE_CHANGE
  | RESPONSE
deriving DecidableEq

/-- Modelled from the spec: an in-process event-log entry of the message
bus (payloads are not modelled; no claim inspects them). -/
structure BusMessage where
  topic : String
  sender : String
  mtype : MessageType
  correlation_id : Option String
deriving DecidableEq

/-- Modelled from the spec: `publish` appends an event to the in-process
event log and never fails. -/
def publish (bus : List BusMessage) (topic sender : String) (mtype : MessageType)
    (correlation_id : Option String) : List BusMessage :=
  bus ++ [⟨topic, sender, mtype, correlation_id⟩]

/-- The `ComplexityResult` record as consumed by `orchestrator.py`
(`complexity_analyzer.py` is not in the source tree; fields from the spec). -/
structure ComplexityResult where
  complexity_score : ℚ
  is_complex : Bool
  indicators : List String
deriving DecidableEq

/-- The `Task` record as consumed by `orchestrator.py` (`reasoner.py` is not in the
source tree; fields from the spec data model). -/
structure Task where
  task_id : Nat
  description : String
  domain : String
  query : String
  dependencies : List Nat
  tools_needed : List String
deriving DecidableEq

/-- The `ReasoningResult` record as consumed by `orchestrator.py` (fields from the
spec contract of `analyze_and_plan`). -/
structure ReasoningResult where
  success : Bool
  analysis : String
  execution_plan : List Task
  reasoning_time_ms : ℚ
  total_estimated_time_ms : ℚ
  error : String
deriving DecidableEq

/-- One entry of the per-task result dict built by
`_process_with_reasoning` (orchestrator.py lines 461-469). -/
structure TaskResult where
  task_id : Nat
  description : String
  domain : String
  confidence : ℚ
  query : String
  tools_used : List String
  status : String
deriving DecidableEq

/-- The `metadata` sub-dict of a `process_request` result.  Each key that
appears in some return path of `orchestrator.py` is an `Option` field;
`none` means the key is absent from that particular result. -/
structure Metadata where
  domain : Option String := none
  confidence : Option ℚ := none
  latency_ms : Option ℚ := none
  threshold : Option ℚ := none
  correlation_id : Option String := none
  state_history : Option (List WorkflowState) := none
  requires_human_review : Option Bool := none
  reasoning_error : Option String := none
  reasoning_used : Option Bool := none
  num_tasks : Option Nat := none
  reasoning_analysis : Option String := none
  reasoning_time_ms : Option ℚ := none
  execution_time_ms : Option ℚ := none
  total_latency_ms : Option ℚ := none
  task_results : Option (List TaskResult) := none
deriving DecidableEq

/-- The metadata dict with every key absent. -/
def mdEmpty : Metadata := {}

/-- Result dict of `process_request`. -/
structure RequestResult where
  status : String
  message : String
  metadata : Metadata
deriving DecidableEq

/-- The orchestrator's `self.stats` counters (orchestrator.py lines 84-90). -/
structure Stats where
  requests_total : Nat
  requests_success : Nat
  requests_failed : Nat
  requests_reasoning : Nat
  total_latency_ms : ℚ
deriving DecidableEq

/-- The mutable state of one `TinyBERTOrchestrator` instance, restricted
to the parts the claims are about.  `confidence_threshold` stands for
`self.config['orchestrator']['confidence_threshold']`. -/
structure Orchestrator where
  enable_reasoning : Bool
  confidence_threshold : ℚ
  state_machine : StateMachine
  stats : Stats
  message_bus : List BusMessage
deriving DecidableEq

/-- Context dicts passed through `process_request` (only forwarded to the
reasoner, never inspected by the orchestrator). -/
abbrev Ctx := List (String × String)

/-- The environment of external collaborators consulted by
`process_request`: the TinyBERT classifier (`router.classify`), the
complexity analyzer (`complexity_analyzer.analyze`) and the Phi-2
reasoner (`reasoner.analyze_and_plan`).  Each may raise in Python, so
each returns `Except String` here; the theorems quantify over every
environment. -/
structure Env where
  classify : String → Except String (String × ℚ)
  analyze : String → Except String ComplexityResult
  analyze_and_plan : String → Option Ctx → Except String ReasoningResult

/-- One happy-path transition plus its `_publish_state_change` event
(orchestrator.py lines 207-208 etc. and 344-358).  A failed transition
is a raised exception carrying the orchestrator state at the raise
point. -/
def stepState (o : Orchestrator) (s : WorkflowState) (cid : String) :
    Except (String × Orchestrator) Orchestrator :=
  match o.state_machine.transition s with
  | .error e => .error (e, o)
  | .ok sm =>
      .ok { o with
              state_machine := sm,
              message_bus :=
                publish o.message_bus "state_changes" "orchestrator"
                  .STATE_CHANGE (some cid) }

/-- Embeds `_escalate_to_human` (orchestrator.py lines 301-342): forced
transition to `RETURN`, `requests_total` incremented, escalated result
built (its metadata has `domain`, `confidence`, `threshold`,
`correlation_id`, `requires_human_review` — and nothing else). -/
def escalate_to_human (o : Orchestrator) (domain : String) (confidence : ℚ)
    (cid : String) : Except (String × Orchestrator) (RequestResult × Orchestrator) :=
  match o.state_machine.transition WorkflowState.RETURN true with
  | .error e => .error (e, o)
  | .ok sm =>
      let o :=
        { o with
            state_machine := sm,
            stats := { o.stats with requests_total := o.stats.requests_total + 1 } }
      .ok
        ({ status := "escalated",
           message := "Low confidence - escalated to human review",
           metadata :=
             { mdEmpty with
                 domain := some domain,
                 confidence := some confidence,
                 threshold := some o.confidence_threshold,
                 correlation_id := some cid,
                 requires_human_review := some true } }, o)

/-- The simple (TinyBERT) path of `process_request` after classification
(orchestrator.py lines 217-276): threshold check, then the six remaining
happy-path transitions, stats update, and the success result. -/
def simple_route (o : Orchestrator) (domain : String) (confidence : ℚ)
    (cid : String) (elapsed_ms : ℚ) :
    Except (String × Orchestrator) (RequestResult × Orchestrator) := do
  if confidence < o.confidence_threshold then
    escalate_to_human o domain confidence cid
  else
    let o ← stepState o .VALIDATE_PRE cid
    let o ← stepState o .LOAD_SLM cid
    let o ← stepState o .EXECUTE cid
    let o ← stepState o .VALIDATE_POST cid
    let o ← stepState o .LOG cid
    let o ← stepState o .RETURN cid
    let latency_ms := elapsed_ms
    let o :=
      { o with stats :=
          { o.stats with
              requests_total := o.stats.requests_total + 1,
              requests_success := o.stats.requests_success + 1,
              total_latency_ms := o.stats.total_latency_ms + latency_ms } }
    let result : RequestResult :=
      { status := "success",
        message := "Request routed to " ++ domain ++ " domain (Phase 2 - routing only)",
        metadata :=
          { mdEmpty with
              domain := some domain,
              confidence := some confidence,
              latency_ms := some latency_ms,
              correlation_id := some cid,
              state_history := some o.state_machine.history } }
    let o :=
      { o with message_bus :=
          publish o.message_bus "orchestrator" "orchestrator" .RESPONSE (some cid) }
    .ok (result, o)

/-- The simple path from the `CLASSIFY` transition on (orchestrator.py
lines 205-220): transition, classify (may raise), then `simple_route`. -/
def simple_classify (env : Env) (o : Orchestrator) (query : String)
    (cid : String) (elapsed_ms : ℚ) :
    Except (String × Orchestrator) (RequestResult × Orchestrator) := do
  let o ← stepState o .CLASSIFY cid
  match env.classify query with
  | .error e => .error (e, o)
  | .ok (domain, confidence) => simple_route o domain confidence cid elapsed_ms

/-- Build one completed task-result entry (orchestrator.py lines 461-469). -/
def mk_task_result (task : Task) (domain : String) (confidence : ℚ) : TaskResult :=
  { task_id := task.task_id,
    description := task.description,
    domain := domain,
    confidence := confidence,
    query := task.query,
    tools_used := task.tools_needed,
    status := "completed" }

/-- The dependency-not-satisfied error result (orchestrator.py lines
442-449): its metadata has only `correlation_id` and `latency_ms` — in
particular no `task_results` key. -/
def dep_error_result (task : Task) (dep_id : Nat) (cid : String) (elapsed_ms : ℚ) :
    RequestResult :=
  { status := "error",
    message :=
      "Task " ++ toString task.task_id ++ " dependency " ++ toString dep_id
        ++ " not satisfied",
    metadata :=
      { mdEmpty with correlation_id := some cid, latency_ms := some elapsed_ms } }

/-- Python dict assignment `task_results[k] = v`: overwrite in place when
the key exists, else append (insertion order preserved). -/
def dict_insert (acc : List (Nat × TaskResult)) (k : Nat) (v : TaskResult) :
    List (Nat × TaskResult) :=
  if acc.any (fun p => p.fst == k) then
    acc.map (fun p => if p.fst == k then (k, v) else p)
  else acc ++ [(k, v)]

/-- The task loop of `_process_with_reasoning` (orchestrator.py lines
436-469).  For each task in plan order: if some dependency id has no
entry in the results dict, return the dependency error result
(`Sum.inl`); otherwise classify the task's sub-query (may raise) and
record a completed result.  `Sum.inr` carries the final results dict.
The orchestrator state is threaded through unchanged. -/
def exec_tasks (env : Env) (o : Orchestrator) (cid : String) (elapsed_ms : ℚ)
    (acc : List (Nat × TaskResult)) :
    List Task →
      Except (String × Orchestrator)
        ((RequestResult × Orchestrator) ⊕ (List (Nat × TaskResult) × Orchestrator))
  | [] => .ok (.inr (acc, o))
  | task :: rest =>
    match task.dependencies.find? (fun d => ! acc.any (fun p => p.fst == d)) with
    | some dep_id => .ok (.inl (dep_error_result task dep_id cid elapsed_ms, o))
    | none =>
      match env.classify task.query with
      | .error e => .error (e, o)
      | .ok (domain, confidence) =>
          exec_tasks env o cid elapsed_ms
            (dict_insert acc task.task_id (mk_task_result task domain confidence)) rest

/-- The execution phase of `_process_with_reasoning` (orchestrator.py
lines 436-518): the task loop, then the three closing transitions,
stats update and the consolidated success result. -/
def reasoning_finish (env : Env) (o : Orchestrator) (rres : ReasoningResult)
    (cid : String) (elapsed_ms : ℚ) :
    Except (String × Orchestrator) (RequestResult × Orchestrator) :=
  match exec_tasks env o cid elapsed_ms [] rres.execution_plan with
  | .error eo => .error eo
  | .ok (.inl ro) => .ok ro
  | .ok (.inr (task_results, o)) => do
    let o ← stepState o .VALIDATE_POST cid
    let o ← stepState o .LOG cid
    let o ← stepState o .RETURN cid
    let latency_ms := elapsed_ms
    let o :=
      { o with stats :=
          { o.stats with
              requests_total := o.stats.requests_total + 1,
              requests_success := o.stats.requests_success + 1,
              requests_reasoning := o.stats.requests_reasoning + 1,
              total_latency_ms := o.stats.total_latency_ms + latency_ms } }
    let result : RequestResult :=
      { status := "success",
        message :=
          "Complex query processed with " ++ toString rres.execution_plan.length
            ++ " task(s) (reasoning-based)",
        metadata :=
          { mdEmpty with
              reasoning_used := some true,
              num_tasks := some rres.execution_plan.length,
              reasoning_analysis := some rres.analysis,
              reasoning_time_ms := some rres.reasoning_time_ms,
              execution_time_ms := some (latency_ms - rres.reasoning_time_ms),
              total_latency_ms := some latency_ms,
              correlation_id := some cid,
              state_history := some o.state_machine.history,
              task_results := some (task_results.map Prod.snd) } }
    let o :=
      { o with message_bus :=
          publish o.message_bus "orchestrator" "orchestrator" .RESPONSE (some cid) }
    .ok (result, o)

/-- The try-block of `_process_with_reasoning` (orchestrator.py lines
389-518): `CLASSIFY` transition, reasoner call, early error result when
the reasoner reports `success=False` (no stats update), the three
workflow-level transitions, then the execution phase. -/
def reasoning_try (env : Env) (o : Orchestrator) (query : String)
    (context : Option Ctx) (cid : String) (elapsed_ms : ℚ) :
    Except (String × Orchestrator) (RequestResult × Orchestrator) := do
  let o ← stepState o .CLASSIFY cid
  match env.analyze_and_plan query context with
  | .error e => .error (e, o)
  | .ok rres =>
    if ¬ rres.success then
      .ok
        ({ status := "error",
           message := "Reasoning failed: " ++ rres.error,
           metadata :=
             { mdEmpty with
                 correlation_id := some cid,
                 latency_ms := some elapsed_ms,
                 reasoning_error := some rres.error } }, o)
    else
      let o ← stepState o .VALIDATE_PRE cid
      let o ← stepState o .LOAD_SLM cid
      let o ← stepState o .EXECUTE cid
      reasoning_finish env o rres cid elapsed_ms

/-- The except-handler's `ERROR` transition (orchestrator.py lines
282-287 and 524-528): transition to `ERROR` unless already terminal,
swallowing a failed transition. -/
def error_transition (o : Orchestrator) : Orchestrator :=
  if is_terminal_state o.state_machine.current then o
  else
    match o.state_machine.transition WorkflowState.ERROR with
    | .ok sm => { o with state_machine := sm }
    | .error _ => o

/-- Embeds `_process_with_reasoning` (orchestrator.py lines 360-543): the try
body plus its own except handler, which transitions to `ERROR`, counts
the request as failed, and returns an error result whose metadata has
`correlation_id`, `latency_ms`, `reasoning_used` and `state_history`. -/
def process_with_reasoning (env : Env) (o : Orchestrator) (query : String)
    (context : Option Ctx) (cid : String) (elapsed_ms : ℚ) :
    RequestResult × Orchestrator :=
  match reasoning_try env o query context cid elapsed_ms with
  | .ok ro => ro
  | .error (msg, o₁) =>
      let o₁ := error_transition o₁
      let o₁ :=
        { o₁ with stats :=
            { o₁.stats with
                requests_total := o₁.stats.requests_total + 1,
                requests_failed := o₁.stats.requests_failed + 1 } }
      ({ status := "error",
         message := msg,
         metadata :=
           { mdEmpty with
               correlation_id := some cid,
               latency_ms := some elapsed_ms,
               reasoning_used := some true,
               state_history := some o₁.state_machine.history } }, o₁)

/-- The try-block of `process_request` (orchestrator.py lines 192-276):
complexity check when reasoning is enabled, dispatch to the reasoning
path on a complex query, otherwise the simple TinyBERT path. -/
def process_try (env : Env) (o : Orchestrator) (query : String)
    (context : Option Ctx) (cid : String) (elapsed_ms : ℚ) :
    Except (String × Orchestrator) (RequestResult × Orchestrator) :=
  if o.enable_reasoning then
    match env.analyze query with
    | .error e => .error (e, o)
    | .ok cres =>
      if cres.is_complex then
        .ok (process_with_reasoning env o query context cid elapsed_ms)
      else simple_classify env o query cid elapsed_ms
  else simple_classify env o query cid elapsed_ms

/-- Embeds `process_request` (orchestrator.py lines 160-299).  `timestamp`
stands for `int(time.time() * 1000)` at entry and `elapsed_ms` for
`(time.time() - start_time) * 1000` at a return point.  Returns the
result dict and the updated orchestrator. -/
def process_request (env : Env) (o : Orchestrator) (query : String)
    (context : Option Ctx) (timestamp : Int) (elapsed_ms : ℚ) :
    RequestResult × Orchestrator :=
  let cid := "req_" ++ toString timestamp
  let sm :=
    ((o.state_machine.reset).set_metadata "correlation_id" cid).set_metadata
      "query" query
  let o := { o with state_machine := sm }
  match process_try env o query context cid elapsed_ms with
  | .ok ro => ro
  | .error (msg, o₁) =>
      let o₁ := error_transition o₁
      let o₁ :=
        { o₁ with stats :=
            { o₁.stats with
                requests_total := o₁.stats.requests_total + 1,
                requests_failed := o₁.stats.requests_failed + 1 } }
      ({ status := "error",
         message := msg,
         metadata :=
           { mdEmpty with
               correlation_id := some cid,
               latency_ms := some elapsed_ms } }, o₁)

/-- The scalar part of `get_stats` (orchestrator.py lines 545-573);
`domains_registered`, `domain_stats` and the bus stats live in the
absent router/bus modules and are not modelled. -/
structure StatsReport where
  requests_total : Nat
  requests_success : Nat
  requests_failed : Nat
  requests_reasoning : Nat
  success_rate : ℚ
  reasoning_rate : ℚ
  average_latency_ms : ℚ
deriving DecidableEq

/-- Embeds `get_stats` (orchestrator.py lines 545-573). -/
def get_stats (o : Orchestrator) : StatsReport :=
  let total := o.stats.requests_total
  let avg : ℚ := if total > 0 then o.stats.total_latency_ms / (total : ℚ) else 0
  { requests_total := total,
    requests_success := o.stats.requests_success,
    requests_failed := o.stats.requests_failed,
    requests_reasoning := o.stats.requests_reasoning,
    success_rate :=
      if total > 0 then (o.stats.requests_success : ℚ) / (total : ℚ) else 0,
    reasoning_rate :=
      if total > 0 then (o.stats.requests_reasoning : ℚ) / (total : ℚ) else 0,
    average_latency_ms := avg }

/-- Modelled from the spec: a Model Registry entry — `model_id`, its
memory footprint, `use_count` (incremented on every `get`) and
`last_used` (a logical last-access timestamp).  The opaque model and
tokenizer handles carry no behaviour and are omitted.  The registry
module is not in the source tree. -/
structure RegEntry where
  model_id : String
  memory_mb : ℚ
  use_count : Nat
  last_used : Nat
deriving DecidableEq

/-- Modelled from the spec: the Model Registry — at most `max_models`
resident entries; `clock` is the logical time source for `last_used`
(each access reads and advances it). -/
structure ModelRegistry where
  max_models : Nat
  entries : List RegEntry
  clock : Nat
deriving DecidableEq

/-- Embeds `is_loaded(model_id)`: is an entry with this id resident? -/
def ModelRegistry.is_loaded (r : ModelRegistry) (id : String) : Bool :=
  r.entries.any (fun e => e.model_id == id)

/-- The entry with the oldest `last_used` timestamp; ties broken by
insertion (list) order, keeping the earlier entry. -/
def oldestEntry : List RegEntry → Option RegEntry
  | [] => none
  | e :: es =>
    match oldestEntry es with
    | none => some e
    | some m => if e.last_used ≤ m.last_used then some e else some m

/-- Modelled from the spec: evict the entry with the oldest `last_used`
timestamp (strict LRU by last-access time). -/
def ModelRegistry.evict_lru (r : ModelRegistry) : ModelRegistry :=
  match oldestEntry r.entries with
  | none => r
  | some m =>
      { r with entries := r.entries.filter (fun e => ! (e.model_id == m.model_id)) }

/-- Modelled from the spec: `register(model_id, ...)` fails with
`AlreadyRegisteredError` if the id is already present; otherwise, when
the current loaded count equals `max_models`, first evicts the
least-recently-used entry, then inserts the new entry (fresh
`last_used`, zero `use_count`). -/
def ModelRegistry.register (r : ModelRegistry) (id : String) (memory_mb : ℚ) :
    Except String ModelRegistry :=
  if r.is_loaded id then .error "AlreadyRegisteredError"
  else
    let r₁ := if r.entries.length = r.max_models then r.evict_lru else r
    .ok
      { r₁ with
          entries := r₁.entries ++ [⟨id, memory_mb, 0, r₁.clock⟩],
          clock := r₁.clock + 1 }

/-- Modelled from the spec: `get(model_id)` returns the entry (or `none`)
and, on a hit, increments `use_count` and refreshes `last_used` as a side
effect. -/
def ModelRegistry.get (r : ModelRegistry) (id : String) :
    Option RegEntry × ModelRegistry :=
  match r.entries.find? (fun e => e.model_id == id) with
  | none => (none, r)
  | some e =>
      let e' : RegEntry := { e with use_count := e.use_count + 1, last_used := r.clock }
      (some e',
        { r with
            entries := r.entries.map (fun x => if x.model_id == id then e' else x),
            clock := r.clock + 1 })

/-- The state effect of one `register` call (a failed registration, a
raised exception in Python, leaves the registry unchanged). -/
def registerD (r : ModelRegistry) (id : String) : ModelRegistry :=
  match r.register id 0 with
  | .ok r' => r'
  | .error _ => r

/-- Register a sequence of model ids in order. -/
def load_all (r : ModelRegistry) (ids : List String) : ModelRegistry :=
  ids.foldl registerD r

/-- An empty registry with capacity `n`. -/
def emptyRegistry (n : Nat) : ModelRegistry := ⟨n, [], 0⟩

/-- The entries created by registering `ids` in order into a registry
whose clock starts at `c`. -/
def freshEntries (c : Nat) : List String → List RegEntry
  | [] => []
  | id :: ids => ⟨id, 0, 0, c⟩ :: freshEntries (c + 1) ids

/-- Insert a task id into the set of completed-result keys (key set of
the Python results dict: add only if absent, keep order). -/
def insert_key (known : List Nat) (k : Nat) : List Nat :=
  if known.any (fun x => x == k) then known else known ++ [k]

/-- The first dependency failure the task loop would hit, if any: walk
the plan in order with the set of completed-result keys; at each task,
either some dependency id is missing (the failure, mirroring
orchestrator.py lines 439-449), or the task would execute — unless its
classification raises, in which case no dependency failure is reached. -/
def first_dep_failure (env : Env) (known : List Nat) :
    List Task → Option (Task × Nat)
  | [] => none
  | task :: rest =>
    match task.dependencies.find? (fun d => ! known.any (fun k => k == d)) with
    | some d => some (task, d)
    | none =>
      match env.classify task.query with
      | .error _ => none
      | .ok _ => first_dep_failure env (insert_key known task.task_id) rest

/-- Dependency ordering: every task's dependency ids are keys of results
recorded by strictly earlier tasks (starting from `known`). -/
def deps_ordered (known : List Nat) : List Task → Prop
  | [] => True
  | task :: rest =>
      (∀ d ∈ task.dependencies, d ∈ known) ∧
        deps_ordered (insert_key known task.task_id) rest

/-- The state machine as `process_request` leaves it right before its
try-block: freshly reset with the two metadata entries set. -/
def initSM (cid q : String) : StateMachine :=
  ⟨.INIT, [], [("query", q), ("correlation_id", cid)]⟩

/-- The happy-path state history. -/
def happyPath : List WorkflowState :=
  [.CLASSIFY, .VALIDATE_PRE, .LOAD_SLM, .EXECUTE, .VALIDATE_POST, .LOG, .RETURN]

/-- A fixed orchestrator fixture: reasoning disabled, threshold 1. -/
def oSimple : Orchestrator :=
  { enable_reasoning := false, confidence_threshold := 1,
    state_machine := ⟨.INIT, [], []⟩,
    stats := ⟨0, 0, 0, 0, 0⟩, message_bus := [] }

/-- The same fixture with reasoning enabled. -/
def oReason : Orchestrator := { oSimple with enable_reasoning := true }

/-- Environment fixture: high-confidence classification, query not
complex, reasoner unavailable. -/
def envHigh : Env :=
  { classify := fun _ => .ok ("finance", 1),
    analyze := fun _ => .ok ⟨0, false, []⟩,
    analyze_and_plan := fun _ _ => .error "reasoner not loaded" }

/-- Environment fixture: low-confidence classification. -/
def envLow : Env := { envHigh with classify := fun _ => .ok ("finance", 0) }

/-- Environment fixture: classifier raises. -/
def envBoom : Env := { envHigh with classify := fun _ => .error "classifier crashed" }

/-- Task fixtures: task 2 depends on task 1. -/
def task1 : Task := ⟨1, "extract codes", "medical_coding", "extract the codes", [], []⟩

def task2 : Task := ⟨2, "compute billing", "medical_billing", "compute the billing", [1], []⟩

/-- A well-ordered two-task plan. -/
def planGood : ReasoningResult := ⟨true, "two step plan", [task1, task2], 3, 10, ""⟩

/-- A plan whose only task depends on a task that is not in the plan. -/
def planBad : ReasoningResult := ⟨true, "bad plan", [task2], 3, 10, ""⟩

/-- A failed decomposition. -/
def planFail : ReasoningResult := ⟨false, "", [], 3, 0, "phi-2 unavailable"⟩

/-- Environment fixture: complex query with the given reasoner plan. -/
def envComplex (rr : ReasoningResult) : Env :=
  { classify := fun _ => .ok ("finance", 1),
    analyze := fun _ => .ok ⟨1, true, ["multiple verbs"]⟩,
    analyze_and_plan := fun _ _ => .ok rr }

lemma except_ok_bind {ε α β : Type} (a : α) (f : α → Except ε β) :
    (Except.ok a : Except ε α) >>= f = f a := rfl

lemma except_error_bind {ε α β : Type} (e : ε) (f : α → Except ε β) :
    (Except.error e : Except ε α) >>= f = Except.error e := rfl

/-- The task loop never changes the orchestrator state it threads, and
ends in one of three ways: a raised classification exception, the
dependency error result, or the completed results dict. -/
lemma exec_tasks_cases (env : Env) (cid : String) (el : ℚ) :
    ∀ (plan : List Task) (o : Orchestrator) (acc : List (Nat × TaskResult)),
      (∃ e, exec_tasks env o cid el acc plan = .error (e, o)) ∨
      (∃ t d, exec_tasks env o cid el acc plan = .ok (.inl (dep_error_result t d cid el, o))) ∨
      (∃ res, exec_tasks env o cid el acc plan = .ok (.inr (res, o))) := by
  intro plan
  induction plan with
  | nil => intro o acc; right; right; exact ⟨acc, rfl⟩
  | cons task rest ih =>
    intro o acc
    cases hf : task.dependencies.find? (fun d => ! acc.any (fun p => p.fst == d)) with
    | some d =>
      right; left
      exact ⟨task, d, by simp [exec_tasks, hf]⟩
    | none =>
      cases hc : env.classify task.query with
      | error e =>
        left
        exact ⟨e, by simp [exec_tasks, hf, hc]⟩
      | ok dc =>
        obtain ⟨domain, confidence⟩ := dc
        have h := ih o (dict_insert acc task.task_id (mk_task_result task domain confidence))
        simpa [exec_tasks, hf, hc] using h

/-- Simple-path outcome analysis: from a fresh state machine, the
TinyBERT path either completes the full happy path with a success
result, or escalates with the shortcut history. -/
lemma simple_classify_ok (env : Env) (o : Orchestrator) (q cid : String) (el : ℚ)
    (hsm : o.state_machine = initSM cid q) (r : RequestResult) (o' : Orchestrator) :
    simple_classify env o q cid el = .ok (r, o') →
      (r.status = "success" ∧
         r.metadata.correlation_id = some cid ∧
         r.metadata.state_history = some happyPath ∧
         o'.state_machine.history = happyPath ∧
         o'.stats.requests_total = o.stats.requests_total + 1 ∧
         o'.stats.requests_success = o.stats.requests_success + 1 ∧
         o'.stats.requests_failed = o.stats.requests_failed ∧
         o'.stats.total_latency_ms = o.stats.total_latency_ms + el) ∨
      (r.status = "escalated" ∧
         r.metadata.correlation_id = some cid ∧
         o'.state_machine.history = [.CLASSIFY, .RETURN] ∧
         o'.stats.requests_total = o.stats.requests_total + 1 ∧
         o'.stats.requests_success = o.stats.requests_success ∧
         o'.stats.requests_failed = o.stats.requests_failed ∧
         o'.stats.total_latency_ms = o.stats.total_latency_ms) := by
  intro h
  cases hc : env.classify q with
  | error e =>
    simp [simple_classify, stepState, hsm, initSM, StateMachine.transition, nextState, hc,
      except_ok_bind, except_error_bind] at h
  | ok dc =>
    obtain ⟨domain, confidence⟩ := dc
    by_cases hlt : confidence < o.confidence_threshold
    · right
      simp [simple_classify, simple_route, stepState, hsm, initSM, StateMachine.transition,
        nextState, hc, hlt, escalate_to_human, except_ok_bind, except_error_bind] at h
      obtain ⟨hr, ho⟩ := h
      subst hr; subst ho
      simp [mdEmpty]
    · left
      simp [simple_classify, simple_route, stepState, hsm, initSM, StateMachine.transition,
        nextState, hc, hlt, except_ok_bind, except_error_bind] at h
      obtain ⟨hr, ho⟩ := h
      subst hr; subst ho
      simp [mdEmpty, happyPath, publish]

/-- A raised exception on the simple path leaves the stats counters
untouched (they are only updated on the success and escalation returns). -/
lemma simple_classify_error (env : Env) (o : Orchestrator) (q cid : String) (el : ℚ)
    (hsm : o.state_machine = initSM cid q) (msg : String) (o₁ : Orchestrator) :
    simple_classify env o q cid el = .error (msg, o₁) → o₁.stats = o.stats := by
  intro h
  cases hc : env.classify q with
  | error e =>
    simp [simple_classify, stepState, hsm, initSM, StateMachine.transition, nextState, hc,
      except_ok_bind, except_error_bind] at h
    obtain ⟨-, ho⟩ := h
    subst ho; rfl
  | ok dc =>
    obtain ⟨domain, confidence⟩ := dc
    by_cases hlt : confidence < o.confidence_threshold
    · simp [simple_classify, simple_route, stepState, hsm, initSM, StateMachine.transition,
        nextState, hc, hlt, escalate_to_human, except_ok_bind, except_error_bind] at h
    · simp [simple_classify, simple_route, stepState, hsm, initSM, StateMachine.transition,
        nextState, hc, hlt, except_ok_bind, except_error_bind] at h

/-- Execution-phase outcome analysis: from the `EXECUTE` state, the
phase either appends the three closing states and returns the success
result, or returns an error result leaving the orchestrator untouched. -/
lemma reasoning_finish_ok (env : Env) (o : Orchestrator) (rres : ReasoningResult)
    (cid : String) (el : ℚ) (hcur : o.state_machine.current = .EXECUTE)
    (r : RequestResult) (o' : Orchestrator) :
    reasoning_finish env o rres cid el = .ok (r, o') →
      (r.status = "success" ∧
         r.metadata.correlation_id = some cid ∧
         r.metadata.state_history =
           some (o.state_machine.history ++ [.VALIDATE_POST, .LOG, .RETURN]) ∧
         o'.state_machine.history =
           o.state_machine.history ++ [.VALIDATE_POST, .LOG, .RETURN] ∧
         o'.stats.requests_total = o.stats.requests_total + 1 ∧
         o'.stats.requests_success = o.stats.requests_success + 1 ∧
         o'.stats.requests_failed = o.stats.requests_failed ∧
         o'.stats.total_latency_ms = o.stats.total_latency_ms + el) ∨
      (r.status = "error" ∧ r.metadata.correlation_id = some cid ∧ o' = o) := by
  intro h
  rcases exec_tasks_cases env cid el rres.execution_plan o [] with
    ⟨e, he⟩ | ⟨t, d, he⟩ | ⟨res, he⟩
  · simp [reasoning_finish, he] at h
  · right
    simp [reasoning_finish, he] at h
    obtain ⟨hr, ho⟩ := h
    subst hr; subst ho
    simp [dep_error_result, mdEmpty]
  · left
    simp [reasoning_finish, he, stepState, StateMachine.transition, nextState, hcur,
      except_ok_bind, except_error_bind] at h
    obtain ⟨hr, ho⟩ := h
    subst hr; subst ho
    simp [mdEmpty, publish]

/-- A raised exception during the execution phase leaves the
orchestrator exactly as it entered the phase. -/
lemma reasoning_finish_error (env : Env) (o : Orchestrator) (rres : ReasoningResult)
    (cid : String) (el : ℚ) (hcur : o.state_machine.current = .EXECUTE)
    (msg : String) (o₁ : Orchestrator) :
    reasoning_finish env o rres cid el = .error (msg, o₁) → o₁ = o := by
  intro h
  rcases exec_tasks_cases env cid el rres.execution_plan o [] with
    ⟨e, he⟩ | ⟨t, d, he⟩ | ⟨res, he⟩
  · simp [reasoning_finish, he] at h
    exact h.2.symm
  · simp [reasoning_finish, he] at h
  · simp [reasoning_finish, he, stepState, StateMachine.transition, nextState, hcur,
      except_ok_bind, except_error_bind] at h

/-- Reasoning-path try-block outcome analysis from a fresh state
machine: either the full happy path with a success result, or an error
result (reasoner failure or dependency failure) with untouched stats. -/
lemma reasoning_try_ok (env : Env) (o : Orchestrator) (q : String) (ctx : Option Ctx)
    (cid : String) (el : ℚ) (hsm : o.state_machine = initSM cid q)
    (r : RequestResult) (o' : Orchestrator) :
    reasoning_try env o q ctx cid el = .ok (r, o') →
      (r.status = "success" ∧
         r.metadata.correlation_id = some cid ∧
         r.metadata.state_history = some happyPath ∧
         o'.state_machine.history = happyPath ∧
         o'.stats.requests_total = o.stats.requests_total + 1 ∧
         o'.stats.requests_success = o.stats.requests_success + 1 ∧
         o'.stats.requests_failed = o.stats.requests_failed ∧
         o'.stats.total_latency_ms = o.stats.total_latency_ms + el) ∨
      (r.status = "error" ∧ r.metadata.correlation_id = some cid ∧ o'.stats = o.stats) := by
  intro h
  cases hp : env.analyze_and_plan q ctx with
  | error e =>
    simp [reasoning_try, stepState, hsm, initSM, StateMachine.transition, nextState, hp,
      except_ok_bind, except_error_bind] at h
  | ok rres =>
    by_cases hs : rres.success
    · simp only [reasoning_try, stepState, hsm, initSM, StateMachine.transition, nextState,
        hp, hs, except_ok_bind, except_error_bind] at h
      simp at h
      have hfin := reasoning_finish_ok env _ rres cid el (by simp) r o' h
      rcases hfin with ⟨h1, h2, h3, h4, h5, h6, h7, h8⟩ | ⟨h1, h2, h3⟩
      · left
        refine ⟨h1, h2, ?_, ?_, by simpa using h5, by simpa using h6,
          by simpa using h7, by simpa using h8⟩
        · simpa [happyPath] using h3
        · simpa [happyPath] using h4
      · right
        subst h3
        exact ⟨h1, h2, rfl⟩
    · right
      simp [reasoning_try, stepState, hsm, initSM, StateMachine.transition, nextState,
        hp, hs, except_ok_bind, except_error_bind] at h
      obtain ⟨hr, ho⟩ := h
      subst hr; subst ho
      simp [mdEmpty]

/-- A raised exception inside the reasoning try-block leaves the stats
counters untouched. -/
lemma reasoning_try_error (env : Env) (o : Orchestrator) (q : String) (ctx : Option Ctx)
    (cid : String) (el : ℚ) (hsm : o.state_machine = initSM cid q)
    (msg : String) (o₁ : Orchestrator) :
    reasoning_try env o q ctx cid el = .error (msg, o₁) → o₁.stats = o.stats := by
  intro h
  cases hp : env.analyze_and_plan q ctx with
  | error e =>
    simp [reasoning_try, stepState, hsm, initSM, StateMachine.transition, nextState, hp,
      except_ok_bind, except_error_bind] at h
    obtain ⟨-, ho⟩ := h
    subst ho; rfl
  | ok rres =>
    by_cases hs : rres.success
    · simp only [reasoning_try, stepState, hsm, initSM, StateMachine.transition, nextState,
        hp, hs, except_ok_bind, except_error_bind] at h
      simp at h
      have := reasoning_finish_error env _ rres cid el (by simp) msg o₁ h
      subst this; rfl
    · simp [reasoning_try, stepState, hsm, initSM, StateMachine.transition, nextState,
        hp, hs, except_ok_bind, except_error_bind] at h

/-- The handler's `ERROR` transition only touches the state machine. -/
lemma error_transition_stats (o : Orchestrator) : (error_transition o).stats = o.stats := by
  unfold error_transition
  split
  · rfl
  · split <;> rfl

/-- Outcome analysis of `_process_with_reasoning`: success with the full
happy path, or an error result that never adds to the success count or
the accumulated latency. -/
lemma process_with_reasoning_spec (env : Env) (o : Orchestrator) (q : String)
    (ctx : Option Ctx) (cid : String) (el : ℚ) (hsm : o.state_machine = initSM cid q)
    (r : RequestResult) (o' : Orchestrator) :
    process_with_reasoning env o q ctx cid el = (r, o') →
      (r.status = "success" ∧
         r.metadata.correlation_id = some cid ∧
         r.metadata.state_history = some happyPath ∧
         o'.state_machine.history = happyPath ∧
         o'.stats.requests_total = o.stats.requests_total + 1 ∧
         o'.stats.requests_success = o.stats.requests_success + 1 ∧
         o'.stats.requests_failed = o.stats.requests_failed ∧
         o'.stats.total_latency_ms = o.stats.total_latency_ms + el) ∨
      (r.status = "error" ∧
         r.metadata.correlation_id = some cid ∧
         o'.stats.requests_success = o.stats.requests_success ∧
         o'.stats.total_latency_ms = o.stats.total_latency_ms) := by
  intro h
  cases hrt : reasoning_try env o q ctx cid el with
  | ok ro =>
    obtain ⟨r0, o0⟩ := ro
    simp [process_with_reasoning, hrt] at h
    obtain ⟨hr, ho⟩ := h
    subst hr; subst ho
    rcases reasoning_try_ok env o q ctx cid el hsm r0 o0 hrt with
      ⟨h1, h2, h3, h4, h5, h6, h7, h8⟩ | ⟨h1, h2, h3⟩
    · exact Or.inl ⟨h1, h2, h3, h4, h5, h6, h7, h8⟩
    · exact Or.inr ⟨h1, h2, by rw [h3], by rw [h3]⟩
  | error eo =>
    obtain ⟨msg, o₁⟩ := eo
    have hst := reasoning_try_error env o q ctx cid el hsm msg o₁ hrt
    simp [process_with_reasoning, hrt] at h
    obtain ⟨hr, ho⟩ := h
    subst hr; subst ho
    exact Or.inr ⟨rfl, rfl, by simp [error_transition_stats, hst],
      by simp [error_transition_stats, hst]⟩

/-- Try-block outcome analysis for `process_request`: every normal
return is a success (full happy path), an escalation (shortcut), or an
error that never adds to the success count or the accumulated latency. -/
lemma process_try_ok (env : Env) (o : Orchestrator) (q : String) (ctx : Option Ctx)
    (cid : String) (el : ℚ) (hsm : o.state_machine = initSM cid q)
    (r : RequestResult) (o' : Orchestrator) :
    process_try env o q ctx cid el = .ok (r, o') →
      (r.status = "success" ∧
         r.metadata.correlation_id = some cid ∧
         r.metadata.state_history = some happyPath ∧
         o'.state_machine.history = happyPath ∧
         o'.stats.requests_total = o.stats.requests_total + 1 ∧
         o'.stats.requests_success = o.stats.requests_success + 1 ∧
         o'.stats.requests_failed = o.stats.requests_failed ∧
         o'.stats.total_latency_ms = o.stats.total_latency_ms + el) ∨
      (r.status = "escalated" ∧
         r.metadata.correlation_id = some cid ∧
         o'.state_machine.history = [.CLASSIFY, .RETURN] ∧
         o'.stats.requests_total = o.stats.requests_total + 1 ∧
         o'.stats.requests_success = o.stats.requests_success ∧
         o'.stats.requests_failed = o.stats.requests_failed ∧
         o'.stats.total_latency_ms = o.stats.total_latency_ms) ∨
      (r.status = "error" ∧
         r.metadata.correlation_id = some cid ∧
         o'.stats.requests_success = o.stats.requests_success ∧
         o'.stats.total_latency_ms = o.stats.total_latency_ms) := by
  intro h
  cases he : o.enable_reasoning with
  | false =>
    simp only [process_try, he, Bool.false_eq_true, if_false] at h
    rcases simple_classify_ok env o q cid el hsm r o' h with h1 | h1
    · exact Or.inl h1
    · exact Or.inr (Or.inl h1)
  | true =>
    cases ha : env.analyze q with
    | error e => simp [process_try, he, ha] at h
    | ok cres =>
      cases hcx : cres.is_complex with
      | false =>
        simp only [process_try, he, ha, hcx, Bool.false_eq_true, if_true, if_false] at h
        rcases simple_classify_ok env o q cid el hsm r o' h with h1 | h1
        · exact Or.inl h1
        · exact Or.inr (Or.inl h1)
      | true =>
        simp only [process_try, he, ha, hcx, if_true] at h
        simp at h
        rcases process_with_reasoning_spec env o q ctx cid el hsm r o' h with h1 | h1
        · exact Or.inl h1
        · exact Or.inr (Or.inr h1)

/-- A raised exception inside the try-block of `process_request` leaves
the stats counters untouched (they are updated by the handler). -/
lemma process_try_error (env : Env) (o : Orchestrator) (q : String) (ctx : Option Ctx)
    (cid : String) (el : ℚ) (hsm : o.state_machine = initSM cid q)
    (msg : String) (o₁ : Orchestrator) :
    process_try env o q ctx cid el = .error (msg, o₁) → o₁.stats = o.stats := by
  intro h
  cases he : o.enable_reasoning with
  | false =>
    simp only [process_try, he, Bool.false_eq_true, if_false] at h
    exact simple_classify_error env o q cid el hsm msg o₁ h
  | true =>
    cases ha : env.analyze q with
    | error e =>
      simp [process_try, he, ha] at h
      obtain ⟨-, ho⟩ := h
      subst ho; rfl
    | ok cres =>
      cases hcx : cres.is_complex with
      | false =>
        simp only [process_try, he, ha, hcx, Bool.false_eq_true, if_true, if_false] at h
        exact simple_classify_error env o q cid el hsm msg o₁ h
      | true =>
        simp [process_try, he, ha, hcx] at h

/-- Master outcome analysis for `process_request`: every call returns a
success result (full happy-path history, counted as a success, its
latency accumulated), an escalated result (shortcut history, counted in
`requests_total` only, no latency accumulated), or an error result
(never counted as a success, no latency accumulated); every result
carries the generated correlation id. -/
lemma process_request_cases (env : Env) (o : Orchestrator) (q : String)
    (ctx : Option Ctx) (ts : Int) (el : ℚ) (r : RequestResult) (o' : Orchestrator) :
    process_request env o q ctx ts el = (r, o') →
      (r.status = "success" ∧
         r.metadata.correlation_id = some ("req_" ++ toString ts) ∧
         r.metadata.state_history = some happyPath ∧
         o'.state_machine.history = happyPath ∧
         o'.stats.requests_total = o.stats.requests_total + 1 ∧
         o'.stats.requests_success = o.stats.requests_success + 1 ∧
         o'.stats.requests_failed = o.stats.requests_failed ∧
         o'.stats.total_latency_ms = o.stats.total_latency_ms + el) ∨
      (r.status = "escalated" ∧
         r.metadata.correlation_id = some ("req_" ++ toString ts) ∧
         o'.state_machine.history = [.CLASSIFY, .RETURN] ∧
         o'.stats.requests_total = o.stats.requests_total + 1 ∧
         o'.stats.requests_success = o.stats.requests_success ∧
         o'.stats.requests_failed = o.stats.requests_failed ∧
         o'.stats.total_latency_ms = o.stats.total_latency_ms) ∨
      (r.status = "error" ∧
         r.metadata.correlation_id = some ("req_" ++ toString ts) ∧
         o'.stats.requests_success = o.stats.requests_success ∧
         o'.stats.total_latency_ms = o.stats.total_latency_ms) := by
  intro h
  simp only [process_request, StateMachine.reset, StateMachine.set_metadata] at h
  set cid := "req_" ++ toString ts with hcid
  set o₀ : Orchestrator :=
    { o with state_machine := initSM cid q } with ho₀
  have hsm : o₀.state_machine = initSM cid q := rfl
  have hstats : o₀.stats = o.stats := rfl
  rw [show ({ o with state_machine :=
      { current := WorkflowState.INIT, history := [],
        metadata := [("query", q), ("correlation_id", cid)] } } : Orchestrator) = o₀
    from rfl] at h
  cases hp : process_try env o₀ q ctx cid el with
  | ok ro =>
    obtain ⟨r0, o0⟩ := ro
    rw [hp] at h
    simp only at h
    injection h with h1 h2
    subst h1; subst h2
    rcases process_try_ok env o₀ q ctx cid el hsm r0 o0 hp with
      ⟨h1, h2, h3, h4, h5, h6, h7, h8⟩ | ⟨h1, h2, h3, h4, h5, h6, h7⟩ | ⟨h1, h2, h3, h4⟩
    · exact Or.inl ⟨h1, h2, h3, h4, hstats ▸ h5, hstats ▸ h6, hstats ▸ h7, hstats ▸ h8⟩
    · exact Or.inr (Or.inl ⟨h1, h2, h3, hstats ▸ h4, hstats ▸ h5, hstats ▸ h6, hstats ▸ h7⟩)
    · exact Or.inr (Or.inr ⟨h1, h2, hstats ▸ h3, hstats ▸ h4⟩)
  | error eo =>
    obtain ⟨msg, o₁⟩ := eo
    rw [hp] at h
    simp only at h
    injection h with h1 h2
    subst h1; subst h2
    have hst : o₁.stats = o.stats :=
      hstats ▸ process_try_error env o₀ q ctx cid el hsm msg o₁ hp
    refine Or.inr (Or.inr ⟨rfl, by simp [mdEmpty], ?_, ?_⟩)
    · simp [error_transition_stats, hst]
    · simp [error_transition_stats, hst]

/-- C2: for every environment (including ones whose classifier,
analyzer or reasoner raises) and every query and context,
`process_request` returns a result whose `status` is one of `success`,
`escalated`, `error`; internal exceptions are converted into the
structured error result (the embedding is a total function: no
exception escapes). -/
theorem c2_no_exception_escapes (env : Env) (o : Orchestrator) (q : String)
    (ctx : Option Ctx) (ts : Int) (el : ℚ) :
    (process_request env o q ctx ts el).1.status = "success" ∨
    (process_request env o q ctx ts el).1.status = "escalated" ∨
    (process_request env o q ctx ts el).1.status = "error" := by
  rcases process_request_cases env o q ctx ts el
      (process_request env o q ctx ts el).1 (process_request env o q ctx ts el).2 rfl with
    h | h | h
  · exact Or.inl h.1
  · exact Or.inr (Or.inl h.1)
  · exact Or.inr (Or.inr h.1)

/-- C3: every request that completes with status `success` records the
state history `CLASSIFY, VALIDATE_PRE, LOAD_SLM, EXECUTE,
VALIDATE_POST, LOG, RETURN` exactly (both in `metadata.state_history`
and in the state machine), and the only other success-adjacent sequence
is the forced escalation shortcut `CLASSIFY, RETURN`. -/
theorem c3_success_state_history (env : Env) (o : Orchestrator) (q : String)
    (ctx : Option Ctx) (ts : Int) (el : ℚ) :
    ((process_request env o q ctx ts el).1.status = "success" →
       (process_request env o q ctx ts el).1.metadata.state_history = some happyPath ∧
       (process_request env o q ctx ts el).2.state_machine.history = happyPath) ∧
    ((process_request env o q ctx ts el).1.status = "escalated" →
       (process_request env o q ctx ts el).2.state_machine.history =
         [.CLASSIFY, .RETURN]) := by
  rcases process_request_cases env o q ctx ts el
      (process_request env o q ctx ts el).1 (process_request env o q ctx ts el).2 rfl with
    h | h | h
  · refine ⟨fun _ => ⟨h.2.2.1, h.2.2.2.1⟩, fun hs => ?_⟩
    rw [h.1] at hs; exact absurd hs (by decide)
  · refine ⟨fun hs => ?_, fun _ => h.2.2.1⟩
    rw [h.1] at hs; exact absurd hs (by decide)
  · refine ⟨fun hs => ?_, fun hs => ?_⟩ <;>
      · rw [h.1] at hs; exact absurd hs (by decide)

/-- C10: `get_stats` computes `success_rate` and `reasoning_rate` as
the corresponding counter divided by `requests_total` (0 when no
request was counted), and `average_latency_ms` as the accumulated
latency divided by `requests_total`; and only requests that return
`success` add their latency to the accumulator — escalated and error
outcomes leave it unchanged while (for escalations) still enlarging the
denominator. -/
theorem c10_get_stats_rates (env : Env) (o : Orchestrator) (q : String)
    (ctx : Option Ctx) (ts : Int) (el : ℚ) :
    ((get_stats o).success_rate =
        if o.stats.requests_total > 0 then
          (o.stats.requests_success : ℚ) / (o.stats.requests_total : ℚ) else 0) ∧
    ((get_stats o).reasoning_rate =
        if o.stats.requests_total > 0 then
          (o.stats.requests_reasoning : ℚ) / (o.stats.requests_total : ℚ) else 0) ∧
    ((get_stats o).average_latency_ms =
        if o.stats.requests_total > 0 then
          o.stats.total_latency_ms / (o.stats.requests_total : ℚ) else 0) ∧
    (((process_request env o q ctx ts el).1.status = "success" ∧
        (process_request env o q ctx ts el).2.stats.total_latency_ms =
          o.stats.total_latency_ms + el) ∨
      (((process_request env o q ctx ts el).1.status = "escalated" ∨
          (process_request env o q ctx ts el).1.status = "error") ∧
        (process_request env o q ctx ts el).2.stats.total_latency_ms =
          o.stats.total_latency_ms)) := by
  refine ⟨rfl, rfl, rfl, ?_⟩
  rcases process_request_cases env o q ctx ts el
      (process_request env o q ctx ts el).1 (process_request env o q ctx ts el).2 rfl with
    h | h | h
  · exact Or.inl ⟨h.1, h.2.2.2.2.2.2.2⟩
  · exact Or.inr ⟨Or.inl h.1, h.2.2.2.2.2.2⟩
  · exact Or.inr ⟨Or.inr h.1, h.2.2.2⟩

/-- C1: when the simple TinyBERT path is taken (reasoning disabled, or
the query analyzed as not complex) and the classifier's confidence is
strictly below the configured threshold, `process_request` returns an
escalated result, increments `requests_total` by exactly one, and
leaves `requests_success` and `requests_failed` unchanged. -/
theorem c1_escalation_accounting (env : Env) (o : Orchestrator) (q : String)
    (ctx : Option Ctx) (ts : Int) (el : ℚ) (domain : String) (confidence : ℚ)
    (hpath : o.enable_reasoning = false ∨
      ∃ c, env.analyze q = .ok c ∧ c.is_complex = false)
    (hc : env.classify q = .ok (domain, confidence))
    (hlt : confidence < o.confidence_threshold) :
    (process_request env o q ctx ts el).1.status = "escalated" ∧
    (process_request env o q ctx ts el).2.stats.requests_total =
      o.stats.requests_total + 1 ∧
    (process_request env o q ctx ts el).2.stats.requests_success =
      o.stats.requests_success ∧
    (process_request env o q ctx ts el).2.stats.requests_failed =
      o.stats.requests_failed := by
  simp only [process_request, StateMachine.reset, StateMachine.set_metadata]
  set cid := "req_" ++ toString ts with hcid
  set o₀ : Orchestrator := { o with state_machine := initSM cid q } with ho₀
  rw [show ({ o with state_machine :=
      { current := WorkflowState.INIT, history := [],
        metadata := [("query", q), ("correlation_id", cid)] } } : Orchestrator) = o₀
    from rfl]
  have hlt0 : confidence < o₀.confidence_threshold := hlt
  have hesc : simple_classify env o₀ q cid el =
      .ok
        ({ status := "escalated",
           message := "Low confidence - escalated to human review",
           metadata :=
             { mdEmpty with
                 domain := some domain,
                 confidence := some confidence,
                 threshold := some o₀.confidence_threshold,
                 correlation_id := some cid,
                 requires_human_review := some true } },
         { o₀ with
             state_machine :=
               ⟨.RETURN, [.CLASSIFY, .RETURN],
                 [("query", q), ("correlation_id", cid)]⟩,
             message_bus :=
               publish o₀.message_bus "state_changes" "orchestrator"
                 .STATE_CHANGE (some cid),
             stats :=
               { o₀.stats with requests_total := o₀.stats.requests_total + 1 } }) := by
    simp [simple_classify, simple_route, stepState, ho₀, initSM, StateMachine.transition,
      nextState, hc, hlt0, escalate_to_human, except_ok_bind, except_error_bind]
  rcases hpath with he | ⟨c, ha, hcx⟩
  · simp only [process_try, he, Bool.false_eq_true, if_false]
    rw [hesc]
    exact ⟨rfl, rfl, rfl, rfl⟩
  · cases he : o.enable_reasoning with
    | false =>
      simp only [process_try, he, Bool.false_eq_true, if_false]
      rw [hesc]
      exact ⟨rfl, rfl, rfl, rfl⟩
    | true =>
      simp only [process_try, he, if_true, ha, hcx, Bool.false_eq_true, if_false]
      rw [hesc]
      exact ⟨rfl, rfl, rfl, rfl⟩

/-- C5: the reasoner is consulted only when reasoning is enabled and the
complexity analyzer marks the query complex — otherwise the outcome of
`process_request` does not depend on the reasoner at all; and when the
reasoner reports `success=False`, `process_request` returns a terminal
error result carrying the reasoner's error (built directly from the
single `analyze_and_plan` call — no retry). -/
theorem c5_reasoner_only_when_complex :
    (∀ (env : Env) (f : String → Option Ctx → Except String ReasoningResult)
        (o : Orchestrator) (q : String) (ctx : Option Ctx) (ts : Int) (el : ℚ),
        (o.enable_reasoning = false ∨
          ∀ c, env.analyze q = .ok c → c.is_complex = false) →
        process_request { env with analyze_and_plan := f } o q ctx ts el =
          process_request env o q ctx ts el) ∧
    (∀ (env : Env) (o : Orchestrator) (q : String) (ctx : Option Ctx) (ts : Int)
        (el : ℚ) (c : ComplexityResult) (rr : ReasoningResult),
        o.enable_reasoning = true → env.analyze q = .ok c → c.is_complex = true →
        env.analyze_and_plan q ctx = .ok rr → rr.success = false →
        (process_request env o q ctx ts el).1.status = "error" ∧
        (process_request env o q ctx ts el).1.message =
          "Reasoning failed: " ++ rr.error ∧
        (process_request env o q ctx ts el).1.metadata.reasoning_error =
          some rr.error) := by
  constructor
  · intro env f o q ctx ts el hpath
    rcases hpath with he | hall
    · simp only [process_request, process_try, he, Bool.false_eq_true, if_false]
      rfl
    · cases he : o.enable_reasoning with
      | false =>
        simp only [process_request, process_try, he, Bool.false_eq_true, if_false]
        rfl
      | true =>
        cases ha : env.analyze q with
        | error e =>
          have ha' : Env.analyze { env with analyze_and_plan := f } q = .error e := ha
          simp only [process_request, process_try, he, if_true, ha, ha']
        | ok c =>
          have ha' : Env.analyze { env with analyze_and_plan := f } q = .ok c := ha
          have hcx := hall c ha
          simp only [process_request, process_try, he, if_true, ha, ha', hcx,
            Bool.false_eq_true, if_false]
          rfl
  · intro env o q ctx ts el c rr he ha hcx hp hs
    simp only [process_request, StateMachine.reset, StateMachine.set_metadata]
    set cid := "req_" ++ toString ts with hcid
    set o₀ : Orchestrator := { o with state_machine := initSM cid q } with ho₀
    rw [show ({ o with state_machine :=
        { current := WorkflowState.INIT, history := [],
          metadata := [("query", q), ("correlation_id", cid)] } } : Orchestrator) = o₀
      from rfl]
    simp only [process_try, he, if_true, ha, hcx]
    have hrt : process_with_reasoning env o₀ q ctx cid el =
        ({ status := "error",
           message := "Reasoning failed: " ++ rr.error,
           metadata :=
             { mdEmpty with
                 correlation_id := some cid,
                 latency_ms := some el,
                 reasoning_error := some rr.error } },
         { o₀ with
             state_machine :=
               ⟨.CLASSIFY, [.CLASSIFY], [("query", q), ("correlation_id", cid)]⟩,
             message_bus :=
               publish o₀.message_bus "state_changes" "orchestrator"
                 .STATE_CHANGE (some cid) }) := by
      simp [process_with_reasoning, reasoning_try, stepState, ho₀, initSM,
        StateMachine.transition, nextState, hp, hs, except_ok_bind, except_error_bind]
    rw [hrt]
    exact ⟨rfl, rfl, rfl⟩

lemma any_map_fst (acc : List (Nat × TaskResult)) (k : Nat) :
    (acc.map Prod.fst).any (fun x => x == k) = acc.any (fun p => p.fst == k) := by
  induction acc with
  | nil => rfl
  | cons p rest ih => simp [ih]

lemma map_fst_update (k : Nat) (v : TaskResult) :
    ∀ acc : List (Nat × TaskResult),
      (acc.map (fun p => if p.fst == k then (k, v) else p)).map Prod.fst =
        acc.map Prod.fst := by
  intro acc
  induction acc with
  | nil => rfl
  | cons p rest ih =>
    by_cases hp : (p.fst == k) = true
    · rw [List.map_cons, List.map_cons, if_pos hp, List.map_cons, ih,
        show p.fst = k from beq_iff_eq.mp hp]
    · rw [List.map_cons, List.map_cons, if_neg hp, List.map_cons, ih]

/-- Updating one value of the results dict never changes its key set;
inserting a fresh key appends it. -/
lemma map_fst_dict_insert (acc : List (Nat × TaskResult)) (k : Nat) (v : TaskResult) :
    (dict_insert acc k v).map Prod.fst = insert_key (acc.map Prod.fst) k := by
  unfold dict_insert insert_key
  rw [any_map_fst]
  by_cases h : acc.any (fun p => p.fst == k) = true
  · simp only [h, if_true]
    exact map_fst_update k v acc
  · simp [h]

lemma find?_dep_eq (acc : List (Nat × TaskResult)) (deps : List Nat) :
    deps.find? (fun d => ! (acc.map Prod.fst).any (fun k => k == d)) =
      deps.find? (fun d => ! acc.any (fun p => p.fst == d)) := by
  have hfun : (fun d => ! (acc.map Prod.fst).any (fun k => k == d)) =
      (fun d => ! acc.any (fun p => p.fst == d)) := by
    funext d
    rw [any_map_fst]
  rw [hfun]

/-- A first dependency failure in the plan makes the task loop return
the corresponding dependency error result, leaving the orchestrator
untouched. -/
lemma fdf_exec (env : Env) (cid : String) (el : ℚ) :
    ∀ (plan : List Task) (o : Orchestrator) (acc : List (Nat × TaskResult))
      (t : Task) (d : Nat),
      first_dep_failure env (acc.map Prod.fst) plan = some (t, d) →
      exec_tasks env o cid el acc plan = .ok (.inl (dep_error_result t d cid el, o)) := by
  intro plan
  induction plan with
  | nil => intro o acc t d h; simp [first_dep_failure] at h
  | cons task rest ih =>
    intro o acc t d h
    rw [first_dep_failure, find?_dep_eq] at h
    cases hf : task.dependencies.find? (fun d => ! acc.any (fun p => p.fst == d)) with
    | some d' =>
      rw [hf] at h
      simp only [Option.some.injEq, Prod.mk.injEq] at h
      obtain ⟨ht, hd⟩ := h
      subst ht; subst hd
      simp [exec_tasks, hf]
    | none =>
      rw [hf] at h
      cases hc : env.classify task.query with
      | error e => rw [hc] at h; simp at h
      | ok dc =>
        obtain ⟨dom, conf⟩ := dc
        rw [hc] at h
        simp only at h
        rw [← map_fst_dict_insert acc task.task_id (mk_task_result task dom conf)] at h
        have := ih o (dict_insert acc task.task_id (mk_task_result task dom conf)) t d h
        simp [exec_tasks, hf, hc, this]

/-- A completed run of the task loop witnesses that every task's
dependencies were recorded by strictly earlier tasks. -/
lemma exec_tasks_inr_deps (env : Env) (cid : String) (el : ℚ) :
    ∀ (plan : List Task) (o : Orchestrator) (acc : List (Nat × TaskResult))
      (res : List (Nat × TaskResult)) (o₂ : Orchestrator),
      exec_tasks env o cid el acc plan = .ok (.inr (res, o₂)) →
      deps_ordered (acc.map Prod.fst) plan := by
  intro plan
  induction plan with
  | nil => intro o acc res o₂ _; trivial
  | cons task rest ih =>
    intro o acc res o₂ h
    cases hf : task.dependencies.find? (fun d => ! acc.any (fun p => p.fst == d)) with
    | some d => simp [exec_tasks, hf] at h
    | none =>
      cases hc : env.classify task.query with
      | error e => simp [exec_tasks, hf, hc] at h
      | ok dc =>
        obtain ⟨dom, conf⟩ := dc
        simp only [exec_tasks, hf, hc] at h
        refine ⟨?_, ?_⟩
        · intro d hd
          have hnone := List.find?_eq_none.mp hf d hd
          simp only [Bool.not_eq_true', Bool.not_eq_false] at hnone
          obtain ⟨p, hp, hpd⟩ := List.any_eq_true.mp hnone
          exact List.mem_map.mpr ⟨p, hp, beq_iff_eq.mp hpd⟩
        · have := ih o _ res o₂ h
          rwa [map_fst_dict_insert] at this

/-- Every entry the task loop records has status `completed`. -/
lemma exec_tasks_inr_completed (env : Env) (cid : String) (el : ℚ) :
    ∀ (plan : List Task) (o : Orchestrator) (acc : List (Nat × TaskResult))
      (res : List (Nat × TaskResult)) (o₂ : Orchestrator),
      exec_tasks env o cid el acc plan = .ok (.inr (res, o₂)) →
      (∀ p ∈ acc, p.snd.status = "completed") →
      ∀ p ∈ res, p.snd.status = "completed" := by
  intro plan
  induction plan with
  | nil =>
    intro o acc res o₂ h hacc
    simp only [exec_tasks, Except.ok.injEq, Sum.inr.injEq, Prod.mk.injEq] at h
    obtain ⟨hr, -⟩ := h
    subst hr
    exact hacc
  | cons task rest ih =>
    intro o acc res o₂ h hacc
    cases hf : task.dependencies.find? (fun d => ! acc.any (fun p => p.fst == d)) with
    | some d => simp [exec_tasks, hf] at h
    | none =>
      cases hc : env.classify task.query with
      | error e => simp [exec_tasks, hf, hc] at h
      | ok dc =>
        obtain ⟨dom, conf⟩ := dc
        simp only [exec_tasks, hf, hc] at h
        refine ih o _ res o₂ h ?_
        intro p hp
        unfold dict_insert at hp
        by_cases hk : acc.any (fun x => x.fst == task.task_id) = true
        · rw [if_pos hk] at hp
          obtain ⟨p', hp', hpe⟩ := List.mem_map.mp hp
          by_cases hpk : p'.fst == task.task_id
          · rw [if_pos hpk] at hpe
            subst hpe
            rfl
          · rw [if_neg hpk] at hpe
            subst hpe
            exact hacc p' hp'
        · rw [if_neg hk] at hp
          rcases List.mem_append.mp hp with hp1 | hp1
          · exact hacc p hp1
          · rcases List.mem_singleton.mp hp1 with rfl
            rfl

/-- A first dependency failure makes the execution phase return exactly
the dependency error result, with the orchestrator untouched. -/
lemma reasoning_finish_dep_fail (env : Env) (oE : Orchestrator) (rr : ReasoningResult)
    (cid : String) (el : ℚ) (t : Task) (d : Nat) :
    first_dep_failure env [] rr.execution_plan = some (t, d) →
    reasoning_finish env oE rr cid el = .ok (dep_error_result t d cid el, oE) := by
  intro h
  have hx := fdf_exec env cid el rr.execution_plan oE [] t d h
  simp [reasoning_finish, hx]

/-- A successful execution phase certifies the dependency ordering of
the plan and that every recorded task result is `completed`. -/
lemma reasoning_finish_success_deps (env : Env) (oE : Orchestrator)
    (rr : ReasoningResult) (cid : String) (el : ℚ) (r : RequestResult)
    (o' : Orchestrator) :
    reasoning_finish env oE rr cid el = .ok (r, o') → r.status = "success" →
      oE.state_machine.current = .EXECUTE →
      deps_ordered [] rr.execution_plan ∧
      ∀ l, r.metadata.task_results = some l → ∀ tr ∈ l, tr.status = "completed" := by
  intro h hs hcur
  rcases exec_tasks_cases env cid el rr.execution_plan oE [] with
    ⟨e, he⟩ | ⟨t, d, he⟩ | ⟨res, he⟩
  · simp [reasoning_finish, he] at h
  · simp [reasoning_finish, he] at h
    obtain ⟨hr, -⟩ := h
    subst hr
    simp [dep_error_result] at hs
  · have hdeps := exec_tasks_inr_deps env cid el rr.execution_plan oE [] res oE he
    have hcomp := exec_tasks_inr_completed env cid el rr.execution_plan oE [] res oE he
      (by intro p hp; cases hp)
    refine ⟨hdeps, ?_⟩
    simp [reasoning_finish, he, stepState, StateMachine.transition, nextState, hcur,
      except_ok_bind, except_error_bind] at h
    obtain ⟨hr, -⟩ := h
    subst hr
    intro l hl
    simp only [Option.some.injEq] at hl
    subst hl
    intro tr htr
    obtain ⟨p, hp, hpe⟩ := List.mem_map.mp htr
    subst hpe
    exact hcomp p hp

/-- From a fresh state machine with a successful plan, a first
dependency failure surfaces as the dependency error result of the
reasoning try-block. -/
lemma reasoning_try_dep_fail (env : Env) (o : Orchestrator) (q : String)
    (ctx : Option Ctx) (cid : String) (el : ℚ) (rr : ReasoningResult)
    (t : Task) (d : Nat) (hsm : o.state_machine = initSM cid q)
    (hp : env.analyze_and_plan q ctx = .ok rr) (hs : rr.success = true)
    (hfd : first_dep_failure env [] rr.execution_plan = some (t, d)) :
    ∃ o', reasoning_try env o q ctx cid el = .ok (dep_error_result t d cid el, o') ∧
      o'.stats = o.stats := by
  simp only [reasoning_try, stepState, hsm, initSM, StateMachine.transition, nextState,
    hp, hs, except_ok_bind, except_error_bind]
  simp only [reduceIte]
  exact ⟨_, reasoning_finish_dep_fail env _ rr cid el t d hfd, rfl⟩

/-- From a fresh state machine, a success result of the reasoning
try-block certifies dependency ordering and completed task results. -/
lemma reasoning_try_success_deps (env : Env) (o : Orchestrator) (q : String)
    (ctx : Option Ctx) (cid : String) (el : ℚ) (rr : ReasoningResult)
    (r : RequestResult) (o' : Orchestrator) (hsm : o.state_machine = initSM cid q)
    (hp : env.analyze_and_plan q ctx = .ok rr) (hs : rr.success = true) :
    reasoning_try env o q ctx cid el = .ok (r, o') → r.status = "success" →
      deps_ordered [] rr.execution_plan ∧
      ∀ l, r.metadata.task_results = some l → ∀ tr ∈ l, tr.status = "completed" := by
  intro h hsucc
  simp only [reasoning_try, stepState, hsm, initSM, StateMachine.transition, nextState,
    hp, hs, except_ok_bind, except_error_bind] at h
  simp at h
  exact reasoning_finish_success_deps env _ rr cid el r o' h hsucc rfl

/-- C4: on the reasoning path, a task is executed only after every id in
its dependency set has a recorded completed result: when the plan runs
to completion every task's dependencies were recorded by strictly
earlier tasks and every recorded result is `completed`; and when some
task's turn comes with an unsatisfied dependency, `process_request`
returns status `error` with the explicit dependency message and no
`task_results` key (no partial results). -/
theorem c4_dependency_ordering (env : Env) (o : Orchestrator) (q : String)
    (ctx : Option Ctx) (ts : Int) (el : ℚ) (c : ComplexityResult)
    (rr : ReasoningResult)
    (he : o.enable_reasoning = true) (ha : env.analyze q = .ok c)
    (hcx : c.is_complex = true) (hp : env.analyze_and_plan q ctx = .ok rr)
    (hs : rr.success = true) :
    (∀ t d, first_dep_failure env [] rr.execution_plan = some (t, d) →
       (process_request env o q ctx ts el).1.status = "error" ∧
       (process_request env o q ctx ts el).1.message =
         "Task " ++ toString t.task_id ++ " dependency " ++ toString d
           ++ " not satisfied" ∧
       (process_request env o q ctx ts el).1.metadata.task_results = none) ∧
    ((process_request env o q ctx ts el).1.status = "success" →
       deps_ordered [] rr.execution_plan ∧
       ∀ l, (process_request env o q ctx ts el).1.metadata.task_results = some l →
         ∀ tr ∈ l, tr.status = "completed") := by
  simp only [process_request, StateMachine.reset, StateMachine.set_metadata]
  set cid := "req_" ++ toString ts with hcid
  set o₀ : Orchestrator := { o with state_machine := initSM cid q } with ho₀
  rw [show ({ o with state_machine :=
      { current := WorkflowState.INIT, history := [],
        metadata := [("query", q), ("correlation_id", cid)] } } : Orchestrator) = o₀
    from rfl]
  simp only [process_try, he, if_true, ha, hcx]
  constructor
  · intro t d hfd
    obtain ⟨o', hrt, -⟩ :=
      reasoning_try_dep_fail env o₀ q ctx cid el rr t d rfl hp hs hfd
    simp only [process_with_reasoning, hrt]
    exact ⟨rfl, rfl, rfl⟩
  · cases hrt : reasoning_try env o₀ q ctx cid el with
    | ok ro =>
      obtain ⟨r0, o0⟩ := ro
      simp only [process_with_reasoning, hrt]
      intro hsucc
      exact reasoning_try_success_deps env o₀ q ctx cid el rr r0 o0 rfl hp hs hrt hsucc
    | error eo =>
      obtain ⟨msg, o₁⟩ := eo
      simp only [process_with_reasoning, hrt]
      intro hsucc
      simp at hsucc

/-- C9: the two error outcomes produced as plain return values inside
`_process_with_reasoning` — the reasoner reporting `success=False`, and
an unsatisfied task dependency — leave every statistics counter
(`requests_total`, `requests_success`, `requests_failed`,
`requests_reasoning`, `total_latency_ms`) exactly as it was, so they
are invisible in `get_stats`; by contrast an error outcome produced by
a raised exception increments `requests_total` and `requests_failed`. -/
theorem c9_silent_error_stats (env : Env) (o : Orchestrator) (q : String)
    (ctx : Option Ctx) (ts : Int) (el : ℚ) :
    (∀ c rr,
        o.enable_reasoning = true → env.analyze q = .ok c → c.is_complex = true →
        env.analyze_and_plan q ctx = .ok rr → rr.success = false →
        (process_request env o q ctx ts el).2.stats = o.stats) ∧
    (∀ c rr t d,
        o.enable_reasoning = true → env.analyze q = .ok c → c.is_complex = true →
        env.analyze_and_plan q ctx = .ok rr → rr.success = true →
        first_dep_failure env [] rr.execution_plan = some (t, d) →
        (process_request env o q ctx ts el).2.stats = o.stats) ∧
    (∀ e,
        o.enable_reasoning = true → env.analyze q = .error e →
        (process_request env o q ctx ts el).2.stats.requests_total =
          o.stats.requests_total + 1 ∧
        (process_request env o q ctx ts el).2.stats.requests_failed =
          o.stats.requests_failed + 1) := by
  refine ⟨?_, ?_, ?_⟩
  · intro c rr he ha hcx hp hs
    simp only [process_request, StateMachine.reset, StateMachine.set_metadata]
    set cid := "req_" ++ toString ts with hcid
    set o₀ : Orchestrator := { o with state_machine := initSM cid q } with ho₀
    rw [show ({ o with state_machine :=
        { current := WorkflowState.INIT, history := [],
          metadata := [("query", q), ("correlation_id", cid)] } } : Orchestrator) = o₀
      from rfl]
    simp only [process_try, he, if_true, ha, hcx]
    have hrt : process_with_reasoning env o₀ q ctx cid el =
        ({ status := "error",
           message := "Reasoning failed: " ++ rr.error,
           metadata :=
             { mdEmpty with
                 correlation_id := some cid,
                 latency_ms := some el,
                 reasoning_error := some rr.error } },
         { o₀ with
             state_machine :=
               ⟨.CLASSIFY, [.CLASSIFY], [("query", q), ("correlation_id", cid)]⟩,
             message_bus :=
               publish o₀.message_bus "state_changes" "orchestrator"
                 .STATE_CHANGE (some cid) }) := by
      simp [process_with_reasoning, reasoning_try, stepState, ho₀, initSM,
        StateMachine.transition, nextState, hp, hs, except_ok_bind, except_error_bind]
    rw [hrt]
  · intro c rr t d he ha hcx hp hs hfd
    simp only [process_request, StateMachine.reset, StateMachine.set_metadata]
    set cid := "req_" ++ toString ts with hcid
    set o₀ : Orchestrator := { o with state_machine := initSM cid q } with ho₀
    rw [show ({ o with state_machine :=
        { current := WorkflowState.INIT, history := [],
          metadata := [("query", q), ("correlation_id", cid)] } } : Orchestrator) = o₀
      from rfl]
    simp only [process_try, he, if_true, ha, hcx]
    obtain ⟨o', hrt, hst⟩ :=
      reasoning_try_dep_fail env o₀ q ctx cid el rr t d rfl hp hs hfd
    simp only [process_with_reasoning, hrt]
    exact hst
  · intro e he ha
    simp only [process_request, StateMachine.reset, StateMachine.set_metadata]
    set cid := "req_" ++ toString ts with hcid
    set o₀ : Orchestrator := { o with state_machine := initSM cid q } with ho₀
    rw [show ({ o with state_machine :=
        { current := WorkflowState.INIT, history := [],
          metadata := [("query", q), ("correlation_id", cid)] } } : Orchestrator) = o₀
      from rfl]
    simp only [process_try, he, if_true, ha]
    exact ⟨by simp [error_transition_stats], by simp [error_transition_stats]⟩


/-- Counterexample to C6 as stated: an escalated result has no
`latency_ms` and no `state_history` key in its metadata, and an error
result has no `domain` and no `confidence` key — so not every outcome
carries all of `domain`, `confidence`, `latency_ms`, `correlation_id`,
`state_history`. -/
theorem c6_counterexample :
    ((process_request envLow oSimple "q" none 0 5).1.status = "escalated" ∧
     (process_request envLow oSimple "q" none 0 5).1.metadata.latency_ms = none ∧
     (process_request envLow oSimple "q" none 0 5).1.metadata.state_history = none) ∧
    ((process_request envBoom oSimple "q" none 0 5).1.status = "error" ∧
     (process_request envBoom oSimple "q" none 0 5).1.metadata.domain = none ∧
     (process_request envBoom oSimple "q" none 0 5).1.metadata.confidence = none) :=
  ⟨⟨rfl, rfl, rfl⟩, ⟨rfl, rfl, rfl⟩⟩

/-- The success result of the simple path, with all metadata fields. -/
lemma simple_classify_success_fields (env : Env) (o : Orchestrator) (q cid : String)
    (el : ℚ) (d : String) (conf : ℚ) (hsm : o.state_machine = initSM cid q)
    (hc : env.classify q = .ok (d, conf)) (hge : ¬ conf < o.confidence_threshold) :
    ∃ o', simple_classify env o q cid el =
      .ok
        ({ status := "success",
           message := "Request routed to " ++ d ++ " domain (Phase 2 - routing only)",
           metadata :=
             { mdEmpty with
                 domain := some d,
                 confidence := some conf,
                 latency_ms := some el,
                 correlation_id := some cid,
                 state_history := some happyPath } }, o') := by
  simp [simple_classify, simple_route, stepState, hsm, initSM,
    StateMachine.transition, nextState, hc, hge, except_ok_bind, except_error_bind,
    happyPath, mdEmpty]

/-- C6 amended: every result of `process_request`, on every outcome,
has a metadata dict containing `correlation_id` equal to the
`req_<timestamp>` identifier generated for that call; the full field
set `domain`, `confidence`, `latency_ms`, `state_history` is present
together with it when the request completes successfully on the simple
routing path, but not on every outcome. -/
theorem c6_correlation_id_always (env : Env) (o : Orchestrator) (q : String)
    (ctx : Option Ctx) (ts : Int) (el : ℚ) :
    (process_request env o q ctx ts el).1.metadata.correlation_id =
      some ("req_" ++ toString ts) ∧
    (∀ d conf,
       (o.enable_reasoning = false ∨
         ∃ c, env.analyze q = .ok c ∧ c.is_complex = false) →
       env.classify q = .ok (d, conf) → ¬ conf < o.confidence_threshold →
       (process_request env o q ctx ts el).1.metadata.domain = some d ∧
       (process_request env o q ctx ts el).1.metadata.confidence = some conf ∧
       (process_request env o q ctx ts el).1.metadata.latency_ms = some el ∧
       (process_request env o q ctx ts el).1.metadata.state_history =
         some happyPath) := by
  constructor
  · rcases process_request_cases env o q ctx ts el
        (process_request env o q ctx ts el).1 (process_request env o q ctx ts el).2 rfl with
      h | h | h
    · exact h.2.1
    · exact h.2.1
    · exact h.2.1
  · intro d conf hpath hc hge
    simp only [process_request, StateMachine.reset, StateMachine.set_metadata]
    set cid := "req_" ++ toString ts with hcid
    set o₀ : Orchestrator := { o with state_machine := initSM cid q } with ho₀
    rw [show ({ o with state_machine :=
        { current := WorkflowState.INIT, history := [],
          metadata := [("query", q), ("correlation_id", cid)] } } : Orchestrator) = o₀
      from rfl]
    obtain ⟨o', hsc⟩ :=
      simple_classify_success_fields env o₀ q cid el d conf rfl hc hge
    rcases hpath with he | ⟨c, ha, hcx⟩
    · simp only [process_try, he, Bool.false_eq_true, if_false, hsc]
      simp
    · cases he : o.enable_reasoning with
      | false =>
        simp only [process_try, he, Bool.false_eq_true, if_false, hsc]
        simp
      | true =>
        simp only [process_try, he, if_true, ha, hcx, Bool.false_eq_true, if_false, hsc]
        simp

theorem c1_escalation_accounting_witness :
    (process_request envLow oSimple "q" none 0 5).1.status = "escalated" ∧
    (process_request envLow oSimple "q" none 0 5).2.stats.requests_total =
      oSimple.stats.requests_total + 1 ∧
    (process_request envLow oSimple "q" none 0 5).2.stats.requests_success =
      oSimple.stats.requests_success ∧
    (process_request envLow oSimple "q" none 0 5).2.stats.requests_failed =
      oSimple.stats.requests_failed :=
  c1_escalation_accounting envLow oSimple "q" none 0 5 "finance" 0
    (Or.inl rfl) rfl (by decide)

theorem c3_success_state_history_witness :
    (process_request envHigh oSimple "q" none 0 5).1.metadata.state_history =
      some happyPath ∧
    (process_request envLow oSimple "q" none 0 5).2.state_machine.history =
      [.CLASSIFY, .RETURN] :=
  ⟨((c3_success_state_history envHigh oSimple "q" none 0 5).1 rfl).1,
   (c3_success_state_history envLow oSimple "q" none 0 5).2 rfl⟩

theorem c4_dependency_ordering_witness :
    ((process_request (envComplex planBad) oReason "q" none 0 5).1.status = "error" ∧
     (process_request (envComplex planBad) oReason "q" none 0 5).1.message =
       "Task " ++ toString task2.task_id ++ " dependency " ++ toString 1
         ++ " not satisfied" ∧
     (process_request (envComplex planBad) oReason "q" none 0 5).1.metadata.task_results =
       none) ∧
    deps_ordered [] planGood.execution_plan :=
  ⟨(c4_dependency_ordering (envComplex planBad) oReason "q" none 0 5
      ⟨1, true, ["multiple verbs"]⟩ planBad rfl rfl rfl rfl rfl).1 task2 1 rfl,
   ((c4_dependency_ordering (envComplex planGood) oReason "q" none 0 5
      ⟨1, true, ["multiple verbs"]⟩ planGood rfl rfl rfl rfl rfl).2 rfl).1⟩

theorem c5_reasoner_only_when_complex_witness :
    (process_request { envHigh with analyze_and_plan := fun _ _ => .ok planGood }
        oSimple "q" none 0 5 =
      process_request envHigh oSimple "q" none 0 5) ∧
    (process_request (envComplex planFail) oReason "q" none 0 5).1.status = "error" ∧
    (process_request (envComplex planFail) oReason "q" none 0 5).1.message =
      "Reasoning failed: " ++ planFail.error ∧
    (process_request (envComplex planFail) oReason "q" none 0 5).1.metadata.reasoning_error =
      some planFail.error :=
  ⟨c5_reasoner_only_when_complex.1 envHigh (fun _ _ => .ok planGood) oSimple "q" none 0 5
      (Or.inl rfl),
   c5_reasoner_only_when_complex.2 (envComplex planFail) oReason "q" none 0 5
      ⟨1, true, ["multiple verbs"]⟩ planFail rfl rfl rfl rfl rfl⟩

theorem c6_correlation_id_always_witness :
    (process_request envHigh oSimple "q" none 0 5).1.metadata.correlation_id =
      some ("req_" ++ toString (0 : Int)) ∧
    (process_request envHigh oSimple "q" none 0 5).1.metadata.domain = some "finance" :=
  ⟨(c6_correlation_id_always envHigh oSimple "q" none 0 5).1,
   ((c6_correlation_id_always envHigh oSimple "q" none 0 5).2 "finance" 1
      (Or.inl rfl) rfl (by decide)).1⟩

theorem c9_silent_error_stats_witness :
    (process_request (envComplex planFail) oReason "q" none 0 5).2.stats =
      oReason.stats ∧
    (process_request (envComplex planBad) oReason "q" none 0 5).2.stats =
      oReason.stats :=
  ⟨(c9_silent_error_stats (envComplex planFail) oReason "q" none 0 5).1
      ⟨1, true, ["multiple verbs"]⟩ planFail rfl rfl rfl rfl rfl,
   (c9_silent_error_stats (envComplex planBad) oReason "q" none 0 5).2.1
      ⟨1, true, ["multiple verbs"]⟩ planBad task2 1 rfl rfl rfl rfl rfl rfl⟩

lemma freshEntries_length : ∀ (l : List String) (c : Nat),
    (freshEntries c l).length = l.length := by
  intro l
  induction l with
  | nil => intro c; rfl
  | cons x xs ih => intro c; simp [freshEntries, ih]

lemma freshEntries_any_mem : ∀ (l : List String) (c : Nat) (id : String), id ∈ l →
    (freshEntries c l).any (fun e => e.model_id == id) = true := by
  intro l
  induction l with
  | nil => intro c id h; cases h
  | cons x xs ih =>
    intro c id h
    rcases List.mem_cons.mp h with rfl | h
    · simp [freshEntries]
    · simp [freshEntries, ih (c + 1) id h]

lemma freshEntries_any_not_mem : ∀ (l : List String) (c : Nat) (id : String), id ∉ l →
    (freshEntries c l).any (fun e => e.model_id == id) = false := by
  intro l
  induction l with
  | nil => intro c id h; rfl
  | cons x xs ih =>
    intro c id h
    have h1 : id ∉ xs := fun hx => h (List.mem_cons_of_mem _ hx)
    have h2 : ¬ x = id := fun he => h (he ▸ List.mem_cons_self x xs)
    simp [freshEntries, ih (c + 1) id h1, h2]

lemma oldest_fresh : ∀ (l : List String) (c : Nat) (x : String),
    oldestEntry (freshEntries c (x :: l)) = some ⟨x, 0, 0, c⟩ := by
  intro l
  induction l with
  | nil => intro c x; rfl
  | cons y l ih =>
    intro c x
    have hy := ih (c + 1) y
    show oldestEntry (⟨x, 0, 0, c⟩ :: freshEntries (c + 1) (y :: l)) = _
    rw [oldestEntry, hy]
    simp [Nat.le_succ]

lemma filter_fresh_ne : ∀ (l : List String) (c : Nat) (x : String), x ∉ l →
    (freshEntries c l).filter (fun e => ! (e.model_id == x)) = freshEntries c l := by
  intro l
  induction l with
  | nil => intro c x _; rfl
  | cons y ys ih =>
    intro c x h
    have h1 : x ∉ ys := fun hx => h (List.mem_cons_of_mem _ hx)
    have h2 : ¬ y = x := fun he => h (he ▸ List.mem_cons_self y ys)
    simp [freshEntries, List.filter_cons, h2, ih (c + 1) x h1]

/-- Registering distinct fresh ids into a registry with enough free
capacity appends one entry per id, with strictly increasing `last_used`
timestamps taken from the clock. -/
lemma load_all_fresh : ∀ (ids : List String) (r : ModelRegistry),
    ids.Nodup → (∀ id ∈ ids, r.is_loaded id = false) →
    r.entries.length + ids.length ≤ r.max_models →
    load_all r ids =
      { max_models := r.max_models,
        entries := r.entries ++ freshEntries r.clock ids,
        clock := r.clock + ids.length } := by
  intro ids
  induction ids with
  | nil =>
    intro r _ _ _
    simp [load_all, freshEntries]
  | cons id ids ih =>
    intro r hnd hfresh hlen
    have hload : r.is_loaded id = false := hfresh id (List.mem_cons_self id ids)
    have hlt : ¬ r.entries.length = r.max_models := by
      simp only [List.length_cons] at hlen
      omega
    have hreg : registerD r id =
        { max_models := r.max_models,
          entries := r.entries ++ [⟨id, 0, 0, r.clock⟩],
          clock := r.clock + 1 } := by
      simp [registerD, ModelRegistry.register, hload, hlt]
    have hstep : load_all r (id :: ids) = load_all (registerD r id) ids := rfl
    rw [hstep, hreg]
    have hnd' : ids.Nodup := (List.nodup_cons.mp hnd).2
    have hid : id ∉ ids := (List.nodup_cons.mp hnd).1
    have hfresh' : ∀ id' ∈ ids,
        (ModelRegistry.is_loaded
          { max_models := r.max_models,
            entries := r.entries ++ [⟨id, 0, 0, r.clock⟩],
            clock := r.clock + 1 } id') = false := by
      intro id' hid'
      have hne : ¬ id = id' := fun he => hid (he ▸ hid')
      have := hfresh id' (List.mem_cons_of_mem _ hid')
      simp only [ModelRegistry.is_loaded] at this ⊢
      simp [List.any_append, this, hne]
    have hlen' :
        (r.entries ++ ([⟨id, 0, 0, r.clock⟩] : List RegEntry)).length + ids.length ≤
          r.max_models := by
      simp only [List.length_append, List.length_cons, List.length_nil] at hlen ⊢
      omega
    rw [ih _ hnd' hfresh' hlen']
    simp [freshEntries, List.append_assoc]
    omega

/-- C8: with `max_models = N` and `N` resident models, registering a new
id evicts the entry with the oldest `last_used` timestamp: after loading
`N+1` distinct ids in order (so the first is least recently used), the
first id is no longer loaded while the other `N` are; and eviction is by
last access, not insertion order — with capacity 2, after loading `a`
then `b` and then touching `a` via `get`, registering `c` evicts `b`
(the least recently *used*), not `a` (the least recently *inserted*). -/
theorem c8_lru_eviction :
    (∀ (N : Nat) (id1 : String) (rest : List String),
        (id1 :: rest).Nodup → rest.length = N → 0 < N →
        (load_all (emptyRegistry N) (id1 :: rest)).is_loaded id1 = false ∧
        ∀ id ∈ rest, (load_all (emptyRegistry N) (id1 :: rest)).is_loaded id = true) ∧
    ((registerD ((load_all (emptyRegistry 2) ["a", "b"]).get "a").2 "c").is_loaded "a"
        = true ∧
     (registerD ((load_all (emptyRegistry 2) ["a", "b"]).get "a").2 "c").is_loaded "b"
        = false ∧
     (registerD ((load_all (emptyRegistry 2) ["a", "b"]).get "a").2 "c").is_loaded "c"
        = true) := by
  constructor
  · intro N id1 rest hnd hlen hpos
    rcases List.eq_nil_or_concat' rest with rfl | ⟨rest', idL, rfl⟩
    · simp at hlen; omega
    · obtain ⟨h1, h2⟩ := List.nodup_cons.mp hnd
      have h1a : id1 ∉ rest' := fun h => h1 (List.mem_append_left _ h)
      have h1b : ¬ id1 = idL := fun he =>
        h1 (List.mem_append_right _ (he ▸ List.mem_singleton_self idL))
      obtain ⟨h2a, -, h2c⟩ := List.nodup_append.mp h2
      have hidL : idL ∉ id1 :: rest' := by
        intro h
        rcases List.mem_cons.mp h with he | he
        · exact h1b he.symm
        · exact h2c he (List.mem_singleton_self idL)
      have hlen' : rest'.length + 1 = N := by
        simp only [List.length_append, List.length_cons, List.length_nil] at hlen
        omega
      have hsplit : load_all (emptyRegistry N) (id1 :: (rest' ++ [idL])) =
          registerD (load_all (emptyRegistry N) (id1 :: rest')) idL := by
        rw [show id1 :: (rest' ++ [idL]) = (id1 :: rest') ++ [idL] from rfl]
        simp [load_all, List.foldl_append]
      have hfill2 : load_all (emptyRegistry N) (id1 :: rest') =
          ⟨N, freshEntries 0 (id1 :: rest'), rest'.length + 1⟩ := by
        rw [load_all_fresh (id1 :: rest') (emptyRegistry N)
          (List.nodup_cons.mpr ⟨h1a, h2a⟩) (fun id _ => rfl)
          (by simp [emptyRegistry]; omega)]
        simp [emptyRegistry]
      have hfull_loaded :
          (freshEntries 0 (id1 :: rest')).any (fun e => e.model_id == idL) = false :=
        freshEntries_any_not_mem _ 0 idL hidL
      have hflen : (freshEntries 0 (id1 :: rest')).length = rest'.length + 1 := by
        rw [freshEntries_length]
        rfl
      have hevict : ∀ c : Nat,
          ModelRegistry.evict_lru ⟨N, freshEntries 0 (id1 :: rest'), c⟩ =
            ⟨N, freshEntries 1 rest', c⟩ := by
        intro c
        simp only [ModelRegistry.evict_lru, oldest_fresh rest' 0 id1]
        rw [show freshEntries 0 (id1 :: rest') =
            ⟨id1, 0, 0, 0⟩ :: freshEntries 1 rest' from rfl, List.filter_cons]
        simp [filter_fresh_ne rest' 1 id1 h1a]
      have hreg : registerD ⟨N, freshEntries 0 (id1 :: rest'), rest'.length + 1⟩ idL =
          ⟨N, freshEntries 1 rest' ++ [⟨idL, 0, 0, rest'.length + 1⟩],
            rest'.length + 1 + 1⟩ := by
        simp [registerD, ModelRegistry.register, ModelRegistry.is_loaded,
          hfull_loaded, hflen, hlen', hevict]
      rw [hsplit, hfill2, hreg]
      constructor
      · have hx : ¬ idL = id1 := fun he => h1b he.symm
        simp [ModelRegistry.is_loaded, List.any_append,
          freshEntries_any_not_mem rest' 1 id1 h1a, hx]
      · intro id hid
        rcases List.mem_append.mp hid with h | h
        · simp [ModelRegistry.is_loaded, List.any_append,
            freshEntries_any_mem rest' 1 id h]
        · rcases List.mem_singleton.mp h with rfl
          simp [ModelRegistry.is_loaded, List.any_append]
  · exact ⟨rfl, rfl, rfl⟩

theorem c8_lru_eviction_witness :
    (load_all (emptyRegistry 2) ["a", "b", "c"]).is_loaded "a" = false ∧
    ∀ id ∈ ["b", "c"], (load_all (emptyRegistry 2) ["a", "b", "c"]).is_loaded id = true :=
  c8_lru_eviction.1 2 "a" ["b", "c"] (by decide) rfl (by decide)

